import Mathlib

/-!
Shallow embedding of the authentication core of the backend template
(src/features/auth/auth.service.ts, the auth repository, the Prisma data
model, src/shared/errors/app-error.ts, the global error handler, and the
permission aggregation in the user controller), together with proofs of
the specification claims about it.

Modelling conventions:
- Machine time (JavaScript Date, stored as a timestamp) is a natural
  number of milliseconds.
- Signed JWT strings are modelled as values drawn from a freshness
  counter carried in the store (`DB.nextId`): the source relies on token
  values being globally unique (the `token` column is declared UNIQUE in
  the Prisma schema), and a freshly signed token is modelled as a value
  never used before.  Row ids (uuid in the source) are drawn from the
  same counter.
- The persistent store orders rows by creation time (`orderBy createdAt
  asc` in the source); this is modelled with a sort by `createdAt` over
  the per-user rows, and the store itself keeps rows in insertion order.
- bcrypt hashing and comparison are external primitives, modelled as
  function parameters (`hash`, `verify`) of the service operations.
-/

set_option maxHeartbeats 1000000

namespace BackendAuth

/-- A row of the `users` table (Prisma model `User`).  The audit
timestamps `createdAt` / `updatedAt` are not read by any of the
operations under study and are omitted. -/
structure User where
  uid : Nat
  email : String
  password : String
  name : String
  isActive : Bool
  deletedAt : Option Nat
deriving Repr, DecidableEq

/-- A row of the `refresh_tokens` table (Prisma model `RefreshToken`). -/
structure RefreshToken where
  sid : Nat
  token : Nat
  userId : Nat
  expiresAt : Nat
  createdAt : Nat
deriving Repr, DecidableEq

/-- The persistent store: the two tables touched by the auth feature,
plus the freshness counter used to model uuid row ids and freshly signed
unique token values. -/
structure DB where
  users : List User
  sessions : List RefreshToken
  nextId : Nat
deriving Repr, DecidableEq

/-- `AppError` from src/shared/errors/app-error.ts: message, HTTP status
code and machine-readable code. -/
structure AppError where
  statusCode : Nat
  code : String
  message : String
deriving Repr, DecidableEq

/-- `AppError.unauthorized` — status 401, code UNAUTHORIZED. -/
def AppError.unauthorized (message : String) : AppError :=
  ⟨401, "UNAUTHORIZED", message⟩

/-- `AppError.forbidden` — status 403, code FORBIDDEN. -/
def AppError.forbidden (message : String) : AppError :=
  ⟨403, "FORBIDDEN", message⟩

/-- `AppError.conflict` — status 409, code CONFLICT. -/
def AppError.conflict (message : String) : AppError :=
  ⟨409, "CONFLICT", message⟩

/-- A Prisma known request error.  Only the unique-constraint violation
P2002 is relevant here (raised by `prisma.user.create` when the UNIQUE
`email` column is violated); `field` models `meta.target[0]`. -/
inductive PrismaError where
  | P2002 (field : String)
deriving Repr, DecidableEq

/-- A failure escaping the register flow: either a domain `AppError`
thrown by the service or a `PrismaError` thrown by the store. -/
inductive RegisterFailure where
  | appError (e : AppError)
  | prismaError (e : PrismaError)
deriving Repr, DecidableEq

/-- The error payload produced by `ApiResponse.error` (status code,
code, message) in the global error handler. -/
structure ErrorResponse where
  statusCode : Nat
  code : String
  message : String
deriving Repr, DecidableEq

/-- The global error handler (src/shared/middlewares, `errorHandler`):
an `AppError` is forwarded as is; a Prisma P2002 unique violation is
mapped to a 409 CONFLICT response. -/
def errorHandler : RegisterFailure → ErrorResponse
  | .appError e => ⟨e.statusCode, e.code, e.message⟩
  | .prismaError (.P2002 field) => ⟨409, "CONFLICT", field ++ " already exists"⟩

/-- `UserResponse` (src/shared/utils/user-mapper.ts): the user row with
`password` and `deletedAt` removed. -/
structure UserResponse where
  uid : Nat
  email : String
  name : String
  isActive : Bool
deriving Repr, DecidableEq

/-- `mapUserResponse` from src/shared/utils/user-mapper.ts. -/
def mapUserResponse (u : User) : UserResponse :=
  ⟨u.uid, u.email, u.name, u.isActive⟩

/-- The payload of a signed access token: `jwt.sign({userId, email},
JWT_SECRET, {expiresIn: JWT_ACCESS_EXPIRES_IN})`. -/
structure AccessToken where
  userId : Nat
  email : String
  exp : Nat
deriving Repr, DecidableEq

/-- `AuthTokens` returned by the service.  `refreshToken` is the stored
token value; `refreshTokenExp` records the expiry claim signed into the
refresh JWT (`now + JWT_REFRESH_EXPIRES_IN`), kept explicit so that its
relation to the stored session expiry can be stated. -/
structure AuthTokens where
  accessToken : AccessToken
  refreshToken : Nat
  refreshTokenExp : Nat
deriving Repr, DecidableEq

/-- JWT configuration read from the environment (JWT_ACCESS_EXPIRES_IN,
JWT_REFRESH_EXPIRES_IN), in milliseconds. -/
structure AuthConfig where
  jwtAccessExpiresIn : Nat
  jwtRefreshExpiresIn : Nat
deriving Repr, DecidableEq

/-- `MAX_DEVICES` from `AuthService.generateTokens`. -/
def MAX_DEVICES : Nat := 4

/-- The fixed stored-expiry constant: `expiresAt.setDate(getDate() + 7)`
— seven days, in milliseconds. -/
def sevenDaysMs : Nat := 7 * 24 * 60 * 60 * 1000

/-- Ordering of session rows by creation time, used to model
`orderBy: { createdAt: "asc" }`. -/
def createdLe (a b : RefreshToken) : Prop := a.createdAt ≤ b.createdAt

instance : DecidableRel createdLe := fun a b => Nat.decLe a.createdAt b.createdAt

namespace AuthRepository

/-- `findUserByEmail`: first user matching the email, excluding soft
deleted rows (`deletedAt: null`). -/
def findUserByEmail (db : DB) (email : String) : Option User :=
  db.users.find? (fun u => u.email == email && u.deletedAt == none)

/-- `findUserById`: first user matching the id, excluding soft deleted
rows. -/
def findUserById (db : DB) (id : Nat) : Option User :=
  db.users.find? (fun u => u.uid == id && u.deletedAt == none)

/-- `createUser`: `prisma.user.create` with the registration data.  The
`email` column is UNIQUE over the whole table (including soft-deleted
rows), so creation fails with Prisma error P2002 when any row already
holds the email; otherwise the new row is appended with a fresh id and
default values `isActive = true`, `deletedAt = null`. -/
def createUser (db : DB) (email password name : String) :
    Except PrismaError (DB × User) :=
  if db.users.any (fun u => u.email == email) then
    .error (.P2002 "email")
  else
    let u : User := ⟨db.nextId, email, password, name, true, none⟩
    .ok ({ db with users := db.users ++ [u], nextId := db.nextId + 1 }, u)

/-- `createRefreshToken`: `prisma.refreshToken.create` with a fresh row
id, the given token value and expiry, and `createdAt` defaulted to the
current time. -/
def createRefreshToken (db : DB) (userId token expiresAt now : Nat) : DB :=
  { db with
    sessions := db.sessions ++ [⟨db.nextId, token, userId, expiresAt, now⟩],
    nextId := db.nextId + 1 }

/-- `findRefreshToken`: `prisma.refreshToken.findUnique({where: {token}})`. -/
def findRefreshToken (db : DB) (token : Nat) : Option RefreshToken :=
  db.sessions.find? (fun s => s.token == token)

/-- `deleteRefreshToken`: delete the row with the given unique token
value; a missing row is ignored (the source catches and swallows the
error), so this is total. -/
def deleteRefreshToken (db : DB) (token : Nat) : DB :=
  { db with sessions := db.sessions.filter (fun s => !(s.token == token)) }

/-- The rows of the `refresh_tokens` table belonging to one user, in
store order (insertion order). -/
def perUser (db : DB) (userId : Nat) : List RefreshToken :=
  db.sessions.filter (fun s => s.userId == userId)

/-- `countUserRefreshTokens`: `prisma.refreshToken.count({where: {userId}})`. -/
def countUserRefreshTokens (db : DB) (userId : Nat) : Nat :=
  (perUser db userId).length

/-- `deleteOldestRefreshTokens`: fetch the user's rows ordered by
`createdAt` ascending, compute `deleteCount = length - keepCount`,
return unchanged if nothing is to be deleted, otherwise delete the rows
whose ids are among the first `deleteCount` of the ordered list. -/
def deleteOldestRefreshTokens (db : DB) (userId keepCount : Nat) : DB :=
  let tokens := (perUser db userId).insertionSort createdLe
  let deleteCount := tokens.length - keepCount
  if deleteCount = 0 then db
  else
    let idsToDelete := (tokens.take deleteCount).map (fun s => s.sid)
    { db with sessions := db.sessions.filter (fun s => !(idsToDelete.contains s.sid)) }

end AuthRepository

namespace AuthService

open AuthRepository

/-- `AuthService.generateTokens`: sign an access token and a refresh
token for the user, compute the stored expiry as now plus a fixed seven
days, evict the oldest sessions when the device cap is reached, and
store the new session.  `cfg` carries the configured JWT TTLs; the
refresh token value is modelled as a fresh unique value. -/
def generateTokens (cfg : AuthConfig) (db : DB) (now : Nat) (user : User) :
    DB × AuthTokens :=
  let accessToken : AccessToken := ⟨user.uid, user.email, now + cfg.jwtAccessExpiresIn⟩
  let refreshTokenValue := db.nextId
  let refreshTokenExp := now + cfg.jwtRefreshExpiresIn
  let expiresAt := now + sevenDaysMs
  let tokenCount := countUserRefreshTokens db user.uid
  let db1 := if MAX_DEVICES ≤ tokenCount
    then deleteOldestRefreshTokens db user.uid (MAX_DEVICES - 1)
    else db
  let db2 := createRefreshToken db1 user.uid refreshTokenValue expiresAt now
  (db2, ⟨accessToken, refreshTokenValue, refreshTokenExp⟩)

/-- `AuthService.register`: conflict check on the email (excluding soft
deleted rows), hash the password, create the user, issue tokens. -/
def register (cfg : AuthConfig) (hash : String → String) (db : DB) (now : Nat)
    (email password name : String) :
    DB × Except RegisterFailure (UserResponse × AuthTokens) :=
  match findUserByEmail db email with
  | some _ => (db, .error (.appError (AppError.conflict "Email already registered")))
  | none =>
    match createUser db email (hash password) name with
    | .error e => (db, .error (.prismaError e))
    | .ok (db1, user) =>
      let (db2, tokens) := generateTokens cfg db1 now user
      (db2, .ok (mapUserResponse user, tokens))

/-- `AuthService.login`: look up the user by email; missing user fails
401, inactive user fails 403, wrong password (checked with the bcrypt
comparison `verify`) fails 401 with the same message as a missing user;
otherwise issue tokens. -/
def login (cfg : AuthConfig) (verify : String → String → Bool) (db : DB) (now : Nat)
    (email password : String) :
    DB × Except AppError (UserResponse × AuthTokens) :=
  match findUserByEmail db email with
  | none => (db, .error (AppError.unauthorized "Invalid email or password"))
  | some user =>
    if !user.isActive then
      (db, .error (AppError.forbidden "Account is deactivated"))
    else if !(verify password user.password) then
      (db, .error (AppError.unauthorized "Invalid email or password"))
    else
      let (db1, tokens) := generateTokens cfg db now user
      (db1, .ok (mapUserResponse user, tokens))

/-- `AuthService.refreshToken`: look up the presented token; a missing
token fails 401 UNAUTHORIZED with message for an invalid token; a stored
but expired token is deleted and fails 401 with the expired message; a
missing or inactive owner fails 401 leaving the store untouched;
otherwise the old token is deleted and a fresh pair issued. -/
def refreshToken (cfg : AuthConfig) (db : DB) (now : Nat) (t : Nat) :
    DB × Except AppError AuthTokens :=
  match findRefreshToken db t with
  | none => (db, .error (AppError.unauthorized "Invalid refresh token"))
  | some storedToken =>
    if storedToken.expiresAt < now then
      (deleteRefreshToken db t, .error (AppError.unauthorized "Refresh token expired"))
    else
      match findUserById db storedToken.userId with
      | none => (db, .error (AppError.unauthorized "User not found or inactive"))
      | some user =>
        if !user.isActive then
          (db, .error (AppError.unauthorized "User not found or inactive"))
        else
          let db1 := deleteRefreshToken db t
          let (db2, tokens) := generateTokens cfg db1 now user
          (db2, .ok tokens)

/-- `AuthService.logout`: delete the presented token, ignoring a miss. -/
def logout (db : DB) (t : Nat) : DB :=
  deleteRefreshToken db t

end AuthService

/-- Well-formedness of the store, reflecting the database constraints of
the Prisma schema and the freshness counter discipline: row ids and
token values are below the counter, ids and token values are UNIQUE, and
the table is in creation order (`createdAt` nondecreasing). -/
def DB.Wf (db : DB) : Prop :=
  (∀ s ∈ db.sessions, s.sid < db.nextId ∧ s.token < db.nextId) ∧
  (db.sessions.map (fun s => s.sid)).Nodup ∧
  (db.sessions.map (fun s => s.token)).Nodup ∧
  db.sessions.Pairwise createdLe

instance (db : DB) : Decidable db.Wf := by
  unfold DB.Wf
  infer_instance

/-- A sequence of successful sequential token issuances for one user:
every successful login, register and refresh ends in a call to
`AuthService.generateTokens`, so a run of successful issuances is a fold
of that function over the times at which they happen. -/
def issueMany (cfg : AuthConfig) (u : User) (db : DB) (nows : List Nat) : DB :=
  nows.foldl (fun d n => (AuthService.generateTokens cfg d n u).1) db

/-- The session rows created by `issueMany`, in creation order: each
issuance at time `n` stores the row with the fresh id and token value of
the store it runs against, expiry `n + sevenDaysMs` and creation time
`n`. -/
def mintedSessions (cfg : AuthConfig) (u : User) (db : DB) : List Nat → List RefreshToken
  | [] => []
  | n :: rest =>
    ⟨db.nextId, db.nextId, u.uid, n + sevenDaysMs, n⟩ ::
      mintedSessions cfg u ((AuthService.generateTokens cfg db n u).1) rest

/-- A sequence of further sequential refresh calls presenting the same
token `t`, at the given times, tracking only the store. -/
def refreshMany (cfg : AuthConfig) (db : DB) (t : Nat) (nows : List Nat) : DB :=
  nows.foldl (fun d n => (AuthService.refreshToken cfg d n t).1) db

/-! Permission aggregation (GET /api/users/me in the user controller),
over the nested shape returned by `findUserByIdWithPermissions`. -/

/-- A `permissions` table row as selected by the include chain (only the
name is read). -/
structure Permission where
  name : String
deriving Repr, DecidableEq

/-- A `role_permissions` join row with its included permission. -/
structure RolePermission where
  permission : Permission
deriving Repr, DecidableEq

/-- A role with its included permission grants. -/
structure RoleWithPermissions where
  permissions : List RolePermission
deriving Repr, DecidableEq

/-- A `user_roles` join row with its included role. -/
structure UserRole where
  role : RoleWithPermissions
deriving Repr, DecidableEq

/-- The user shape returned by `findUserByIdWithPermissions`: only the
role assignments matter for aggregation. -/
structure UserWithPermissions where
  roles : List UserRole
deriving Repr, DecidableEq

/-- JavaScript `[...new Set(l)]`: de-duplication keeping the first
occurrence of each element, in encounter order. -/
def jsSetDedup (l : List String) : List String :=
  l.foldl (fun acc x => if x ∈ acc then acc else acc ++ [x]) []

/-- The permission computation of `UserController.getMe`: flatten the
permission names granted through every assigned role and de-duplicate
with a Set. -/
def getMePermissions (user : UserWithPermissions) : List String :=
  jsSetDedup (user.roles.flatMap (fun ur => ur.role.permissions.map (fun rp => rp.permission.name)))

/-! Interleaving model of two concurrent issuances for the same
principal.  `AuthService.generateTokens` performs its three store
operations — count, conditional eviction, insert — as three separate
awaited Prisma calls with no surrounding transaction, so a concurrent
issuance can run its own store operations between them.  A thread is the
issuance body reduced to those three store steps, with the observed
count held in thread-local state. -/

/-- Thread-local state of one in-flight issuance: program counter over
the three store operations, the count observed at step 0, and the token
value this issuance signs. -/
structure IssuanceThread where
  pc : Nat
  cnt : Nat
  tok : Nat
deriving Repr, DecidableEq

/-- One store operation of an in-flight issuance, exactly as
`generateTokens` performs them: read the count; evict down to
`MAX_DEVICES - 1` if the observed count reached the cap; insert the new
session row. -/
def issuanceStep (uid now expiresAt : Nat) (db : DB) (th : IssuanceThread) :
    DB × IssuanceThread :=
  match th.pc with
  | 0 => (db, { th with pc := 1, cnt := AuthRepository.countUserRefreshTokens db uid })
  | 1 =>
    (if MAX_DEVICES ≤ th.cnt
      then AuthRepository.deleteOldestRefreshTokens db uid (MAX_DEVICES - 1)
      else db,
     { th with pc := 2 })
  | 2 => (AuthRepository.createRefreshToken db uid th.tok expiresAt now, { th with pc := 3 })
  | _ => (db, th)

/-- Run two concurrent issuances under a schedule: `true` advances
thread A by one store operation, `false` advances thread B. -/
def runSchedule (uid now expiresAt : Nat) (sched : List Bool)
    (st : DB × IssuanceThread × IssuanceThread) : DB × IssuanceThread × IssuanceThread :=
  sched.foldl
    (fun st pick =>
      let (db, a, b) := st
      if pick then
        let (db1, a1) := issuanceStep uid now expiresAt db a
        (db1, a1, b)
      else
        let (db1, b1) := issuanceStep uid now expiresAt db b
        (db1, a, b1))
    st

/-- The error carried by a failed service result, if any. -/
def errOf {α : Type} : Except AppError α → Option AppError
  | .error e => some e
  | .ok _ => none

/-! Concrete fixtures used for witnesses and counterexamples. -/

/-- The default JWT TTL configuration: 15 minutes and 7 days, in ms. -/
def cfgEx : AuthConfig := ⟨900000, 604800000⟩

/-- An active stored user. -/
def userActive : User := ⟨1, "a@x.com", "hashA", "A", true, none⟩

/-- A deactivated stored user (`isActive = false`). -/
def userInactive : User := ⟨2, "b@x.com", "hashB", "B", false, none⟩

/-- A tombstoned user (`deletedAt` set). -/
def userTombstoned : User := ⟨3, "t@x.com", "hashT", "T", true, some 50⟩

/-- A store with one active and one deactivated user and no sessions. -/
def dbLogin : DB := ⟨[userActive, userInactive], [], 4⟩

/-- A store holding one unexpired session (token 7) owned by the active
user. -/
def dbRefreshValid : DB := ⟨[userActive], [⟨0, 7, 1, 1000, 0⟩], 8⟩

/-- A store holding one unexpired session (token 7) owned by the
deactivated user. -/
def dbRefreshInactive : DB := ⟨[userInactive], [⟨0, 7, 2, 1000, 0⟩], 8⟩

/-- A store with an active user and a tombstoned user, for register. -/
def dbRegister : DB := ⟨[userActive, userTombstoned], [], 4⟩

/-- A store with one active user and no sessions, for issuance runs. -/
def dbIssue : DB := ⟨[userActive], [], 10⟩

/-- A store where the active user already holds exactly `MAX_DEVICES`
live sessions. -/
def dbRace : DB :=
  ⟨[userActive],
   [⟨0, 0, 1, 999999, 0⟩, ⟨1, 1, 1, 999999, 1⟩, ⟨2, 2, 1, 999999, 2⟩, ⟨3, 3, 1, 999999, 3⟩],
   4⟩

/-- Thread A of the race: a fresh issuance about to run its three store
operations. -/
def thrA : IssuanceThread := ⟨0, 0, 100⟩

/-- Thread B of the race. -/
def thrB : IssuanceThread := ⟨0, 0, 101⟩

/-- The interleaving where both issuances read the count before either
inserts: A.count, B.count, A.evict, B.evict, A.insert, B.insert. -/
def raceSchedule : List Bool := [true, false, true, false, true, false]

/-- A user assigned role R1 granting {menus:view} and role R2 granting
{menus:view, menus:edit}. -/
def exUserPerms : UserWithPermissions :=
  ⟨[⟨⟨[⟨⟨"menus:view"⟩⟩]⟩⟩, ⟨⟨[⟨⟨"menus:view"⟩⟩, ⟨⟨"menus:edit"⟩⟩]⟩⟩]⟩

/-! ## Theorems -/

open AuthRepository AuthService

/-- C9: on every issuance the stored session expiry is the current time
plus the fixed seven-day constant, for every configured refresh TTL: the
store resulting from `generateTokens` does not depend on the
configuration at all, the inserted session carries the returned refresh
token value with expiry `now + sevenDaysMs`, while the expiry signed
into the refresh JWT is `now + cfg.jwtRefreshExpiresIn`. -/
theorem stored_expiry_fixed_seven_days (cfg cfg2 : AuthConfig) (db : DB) (now : Nat)
    (u : User) :
    (generateTokens cfg db now u).1 = (generateTokens cfg2 db now u).1 ∧
    (∃ s ∈ ((generateTokens cfg db now u).1).sessions,
        s.token = ((generateTokens cfg db now u).2).refreshToken ∧
        s.expiresAt = now + sevenDaysMs ∧ s.createdAt = now) ∧
    ((generateTokens cfg db now u).2).refreshTokenExp = now + cfg.jwtRefreshExpiresIn := by
  refine ⟨rfl, ?_, rfl⟩
  refine ⟨⟨(if MAX_DEVICES ≤ countUserRefreshTokens db u.uid
      then deleteOldestRefreshTokens db u.uid (MAX_DEVICES - 1) else db).nextId,
      db.nextId, u.uid, now + sevenDaysMs, now⟩, ?_, rfl, rfl, rfl⟩
  simp [generateTokens, createRefreshToken]

/-- C4 (amended): a login against a stored, non-tombstoned user whose
active flag is false fails before the password is ever compared, for
every comparison function and submitted secret — but with the
`Forbidden` error kind (403 FORBIDDEN, "Account is deactivated"), which
differs from the `Unauthenticated` kind used for credential failures. -/
theorem inactive_login_forbidden (cfg : AuthConfig) (db : DB) (now : Nat)
    (email : String) (u : User)
    (hfind : findUserByEmail db email = some u) (hact : u.isActive = false) :
    (∀ (verify : String → String → Bool) (password : String),
      login cfg verify db now email password =
        (db, .error (AppError.forbidden "Account is deactivated"))) ∧
    (AppError.forbidden "Account is deactivated").code ≠
      (AppError.unauthorized "Invalid email or password").code := by
  refine ⟨fun verify password => ?_, by decide⟩
  simp [login, hfind, hact]

/-- C4 witness: the amended theorem applied to the concrete store
`dbLogin` and its deactivated user. -/
theorem inactive_login_forbidden_witness :
    login cfgEx (fun _ _ => true) dbLogin 0 "b@x.com" "pw" =
      (dbLogin, .error (AppError.forbidden "Account is deactivated")) :=
  (inactive_login_forbidden cfgEx dbLogin 0 "b@x.com" userInactive
    (by decide) (by decide)).1 (fun _ _ => true) "pw"

/-- C4 counterexample: the claim as stated is false — at a concrete
store, a login for a deactivated principal whose submitted secret would
even match fails with code FORBIDDEN (status 403), not with the
Unauthenticated kind. -/
theorem inactive_login_not_unauthenticated :
    ∃ e : AppError,
      errOf (login cfgEx (fun _ _ => true) dbLogin 0 "b@x.com" "pw").2 = some e ∧
      e.code ≠ "UNAUTHORIZED" ∧ e.statusCode ≠ 401 ∧
      e = AppError.forbidden "Account is deactivated" :=
  ⟨AppError.forbidden "Account is deactivated", by decide⟩

/-- C5: an unknown login identifier and a known active identifier with a
non-matching secret produce the very same failure value: both fail with
401 UNAUTHORIZED and the message for invalid credentials, and in both
cases the store is untouched. -/
theorem login_failure_indistinguishable (cfg : AuthConfig)
    (verify : String → String → Bool) (db : DB) (now : Nat)
    (emailKnown passKnown emailUnknown passUnknown : String) (u : User)
    (hfind : findUserByEmail db emailKnown = some u)
    (hact : u.isActive = true)
    (hpw : verify passKnown u.password = false)
    (hmiss : findUserByEmail db emailUnknown = none) :
    login cfg verify db now emailKnown passKnown =
      (db, .error (AppError.unauthorized "Invalid email or password")) ∧
    login cfg verify db now emailUnknown passUnknown =
      (db, .error (AppError.unauthorized "Invalid email or password")) := by
  constructor
  · simp [login, hfind, hact, hpw]
  · simp [login, hmiss]

/-- C5 witness: the theorem applied to the concrete store `dbLogin`,
with a comparison that rejects the submitted secret. -/
theorem login_failure_indistinguishable_witness :
    login cfgEx (fun _ _ => false) dbLogin 0 "a@x.com" "wrongpass" =
      (dbLogin, .error (AppError.unauthorized "Invalid email or password")) ∧
    login cfgEx (fun _ _ => false) dbLogin 0 "unknown@x.com" "anything" =
      (dbLogin, .error (AppError.unauthorized "Invalid email or password")) :=
  login_failure_indistinguishable cfgEx (fun _ _ => false) dbLogin 0
    "a@x.com" "wrongpass" "unknown@x.com" "anything" userActive
    (by decide) (by decide) (by decide) (by decide)

/-- C3: the count, eviction and insert inside token issuance are three
separate store operations with no transactional grouping, so two
concurrent issuances for the same principal can both observe the stale
count: under the interleaving where both read the count before either
inserts, a store that held exactly `MAX_DEVICES` sessions for the
principal ends with `MAX_DEVICES + 1` — the cap is jointly exceeded,
which the claimed atomic unit would make impossible. -/
theorem issuance_race_exceeds_device_cap :
    countUserRefreshTokens dbRace 1 = MAX_DEVICES ∧
    countUserRefreshTokens
      (runSchedule 1 10 999999 raceSchedule (dbRace, thrA, thrB)).1 1 =
      MAX_DEVICES + 1 := by
  decide

/-- Deleting a token removes every row holding it, so the lookup misses
afterwards. -/
theorem findRefreshToken_delete (db : DB) (t : Nat) :
    findRefreshToken (deleteRefreshToken db t) t = none := by
  simp [findRefreshToken, deleteRefreshToken, List.find?_eq_none, List.mem_filter]

/-- A refresh presenting a token absent from the store fails with the
invalid-token message and leaves the store untouched. -/
theorem refreshToken_of_not_found (cfg : AuthConfig) (db : DB) (now t : Nat)
    (h : findRefreshToken db t = none) :
    refreshToken cfg db now t =
      (db, .error (AppError.unauthorized "Invalid refresh token")) := by
  simp [refreshToken, h]

/-- C6 (amended): a stored but expired refresh token is deleted and the
call fails 401 UNAUTHORIZED with message "Refresh token expired", while
a token not found at all fails 401 UNAUTHORIZED with message "Invalid
refresh token": the two failures share the same error kind (code and
status) and are distinguishable only by message — the source has no
separate TokenExpired / TokenInvalid kinds. -/
theorem expired_refresh_deleted_same_kind (cfg : AuthConfig) (db : DB) (now t : Nat)
    (s : RefreshToken)
    (hfind : findRefreshToken db t = some s) (hexp : s.expiresAt < now) :
    refreshToken cfg db now t =
      (deleteRefreshToken db t, .error (AppError.unauthorized "Refresh token expired")) ∧
    findRefreshToken (refreshToken cfg db now t).1 t = none ∧
    (∀ (db2 : DB) (now2 t2 : Nat), findRefreshToken db2 t2 = none →
      refreshToken cfg db2 now2 t2 =
        (db2, .error (AppError.unauthorized "Invalid refresh token"))) ∧
    (AppError.unauthorized "Refresh token expired").code =
      (AppError.unauthorized "Invalid refresh token").code ∧
    (AppError.unauthorized "Refresh token expired").statusCode =
      (AppError.unauthorized "Invalid refresh token").statusCode ∧
    (AppError.unauthorized "Refresh token expired").message ≠
      (AppError.unauthorized "Invalid refresh token").message := by
  have h1 : refreshToken cfg db now t =
      (deleteRefreshToken db t, .error (AppError.unauthorized "Refresh token expired")) := by
    simp [refreshToken, hfind, hexp]
  refine ⟨h1, ?_, fun db2 now2 t2 h => refreshToken_of_not_found cfg db2 now2 t2 h,
    by decide, by decide, by decide⟩
  rw [h1]
  exact findRefreshToken_delete db t

/-- C6 witness: the amended theorem applied to the concrete store
`dbRefreshValid` at a time past the stored expiry. -/
theorem expired_refresh_deleted_same_kind_witness :
    refreshToken cfgEx dbRefreshValid 2000 7 =
      (deleteRefreshToken dbRefreshValid 7,
        .error (AppError.unauthorized "Refresh token expired")) ∧
    findRefreshToken (refreshToken cfgEx dbRefreshValid 2000 7).1 7 = none :=
  ⟨(expired_refresh_deleted_same_kind cfgEx dbRefreshValid 2000 7 ⟨0, 7, 1, 1000, 0⟩
      (by decide) (by decide)).1,
   (expired_refresh_deleted_same_kind cfgEx dbRefreshValid 2000 7 ⟨0, 7, 1, 1000, 0⟩
      (by decide) (by decide)).2.1⟩

/-- C6 counterexample: the claim as stated is false — at a concrete
store the expired-token failure and the not-found failure carry the very
same error kind (code UNAUTHORIZED, status 401); the source does not use
distinct TokenExpired / TokenInvalid kinds. -/
theorem expired_and_invalid_share_error_kind :
    ∃ e1 e2 : AppError,
      errOf (refreshToken cfgEx dbRefreshValid 2000 7).2 = some e1 ∧
      errOf (refreshToken cfgEx dbRefreshValid 2000 99).2 = some e2 ∧
      e1.code = e2.code ∧ e1.statusCode = e2.statusCode ∧ e1.code = "UNAUTHORIZED" :=
  ⟨AppError.unauthorized "Refresh token expired",
   AppError.unauthorized "Invalid refresh token",
   by decide, by decide, by decide, by decide, by decide⟩

/-- C10: when the presented refresh token is stored and unexpired but
its owner is absent, tombstoned, or inactive (the user lookup excludes
tombstoned rows, so all three cases make the lookup miss or return an
inactive row), the call fails 401 UNAUTHORIZED before any deletion or
insertion: the resulting store is exactly the input store and the token
still satisfies a lookup. -/
theorem refresh_inactive_user_leaves_store_unchanged (cfg : AuthConfig) (db : DB)
    (now t : Nat) (s : RefreshToken)
    (hfind : findRefreshToken db t = some s)
    (hexp : ¬ s.expiresAt < now)
    (huser : ∀ u : User, findUserById db s.userId = some u → u.isActive = false) :
    refreshToken cfg db now t =
      (db, .error (AppError.unauthorized "User not found or inactive")) ∧
    findRefreshToken (refreshToken cfg db now t).1 t = some s := by
  have h1 : refreshToken cfg db now t =
      (db, .error (AppError.unauthorized "User not found or inactive")) := by
    cases hu : findUserById db s.userId with
    | none => simp [refreshToken, hfind, hexp, hu]
    | some u => simp [refreshToken, hfind, hexp, hu, huser u hu]
  refine ⟨h1, ?_⟩
  rw [h1]
  exact hfind

/-- C10 witness: the theorem applied to the concrete store
`dbRefreshInactive`, whose single session is owned by the deactivated
user. -/
theorem refresh_inactive_user_leaves_store_unchanged_witness :
    refreshToken cfgEx dbRefreshInactive 5 7 =
      (dbRefreshInactive, .error (AppError.unauthorized "User not found or inactive")) ∧
    findRefreshToken (refreshToken cfgEx dbRefreshInactive 5 7).1 7 =
      some ⟨0, 7, 2, 1000, 0⟩ :=
  refresh_inactive_user_leaves_store_unchanged cfgEx dbRefreshInactive 5 7
    ⟨0, 7, 2, 1000, 0⟩ (by decide) (by decide)
    (fun u hu => by
      have h2 : findUserById dbRefreshInactive
          (RefreshToken.userId ⟨0, 7, 2, 1000, 0⟩) = some userInactive := by decide
      have h3 : u = userInactive := (Option.some.inj (h2.symm.trans hu)).symm
      rw [h3]
      decide)

/-- The Set-based de-duplication fold keeps the accumulator free of
duplicates. -/
theorem jsSetDedup_go_nodup (l : List String) : ∀ acc : List String, acc.Nodup →
    (l.foldl (fun acc x => if x ∈ acc then acc else acc ++ [x]) acc).Nodup := by
  induction l with
  | nil => intro acc h; exact h
  | cons x l ih =>
    intro acc h
    simp only [List.foldl_cons]
    by_cases hx : x ∈ acc
    · simpa [hx] using ih acc h
    · have hstep : (acc ++ [x]).Nodup := by
        simp [List.nodup_append, h, hx]
      simpa [hx] using ih _ hstep

/-- Membership through the Set-based de-duplication fold: an element is
in the result iff it is in the accumulator or in the remaining input. -/
theorem jsSetDedup_go_mem (l : List String) : ∀ (acc : List String) (y : String),
    (y ∈ l.foldl (fun acc x => if x ∈ acc then acc else acc ++ [x]) acc ↔
      y ∈ acc ∨ y ∈ l) := by
  induction l with
  | nil => intro acc y; simp
  | cons x l ih =>
    intro acc y
    simp only [List.foldl_cons]
    by_cases hx : x ∈ acc
    · rw [if_pos hx, ih]
      constructor
      · rintro (h | h)
        · exact Or.inl h
        · exact Or.inr (List.mem_cons_of_mem x h)
      · rintro (h | h)
        · exact Or.inl h
        · rcases List.mem_cons.mp h with rfl | h
          · exact Or.inl hx
          · exact Or.inr h
    · rw [if_neg hx, ih]
      simp [List.mem_append, List.mem_cons]
      tauto

/-- `jsSetDedup` returns a duplicate-free list. -/
theorem jsSetDedup_nodup (l : List String) : (jsSetDedup l).Nodup :=
  jsSetDedup_go_nodup l [] List.nodup_nil

/-- `jsSetDedup` keeps exactly the elements of its input. -/
theorem jsSetDedup_mem (l : List String) (y : String) : y ∈ jsSetDedup l ↔ y ∈ l := by
  rw [jsSetDedup, jsSetDedup_go_mem]
  simp

/-- C8: the effective-permissions computation of GET /api/users/me is
the de-duplicated union of the permission names granted through all
assigned roles — every name appears at most once, and a name is in the
result exactly when some assigned role grants it; on the concrete
two-role example, roles granting {menus:view} and {menus:view,
menus:edit} resolve to exactly {menus:view, menus:edit}. -/
theorem getMe_permissions_set_union :
    (∀ user : UserWithPermissions,
      (getMePermissions user).Nodup ∧
      ∀ p : String, p ∈ getMePermissions user ↔
        ∃ ur ∈ user.roles, ∃ rp ∈ ur.role.permissions, rp.permission.name = p) ∧
    (getMePermissions exUserPerms).Nodup ∧
    (∀ p : String, p ∈ getMePermissions exUserPerms ↔
      (p = "menus:view" ∨ p = "menus:edit")) := by
  refine ⟨fun user => ⟨jsSetDedup_nodup _, fun p => ?_⟩, jsSetDedup_nodup _, fun p => ?_⟩
  · rw [getMePermissions, jsSetDedup_mem]
    simp [List.mem_flatMap, List.mem_map]
  · have hev : getMePermissions exUserPerms = ["menus:view", "menus:edit"] := by decide
    rw [hev]
    simp

/-- Evicting old sessions never touches the users table. -/
theorem users_deleteOldest (db : DB) (uid k : Nat) :
    (deleteOldestRefreshTokens db uid k).users = db.users := by
  unfold deleteOldestRefreshTokens
  by_cases h : (perUser db uid).length - k = 0 <;> simp [h]

/-- Token issuance never touches the users table. -/
theorem users_generateTokens (cfg : AuthConfig) (db : DB) (now : Nat) (u : User) :
    ((generateTokens cfg db now u).1).users = db.users := by
  simp only [generateTokens, createRefreshToken]
  split
  · exact users_deleteOldest db u.uid (MAX_DEVICES - 1)
  · rfl

/-- C7: registration fails with the Conflict kind (status 409, code
CONFLICT) whenever any stored user — tombstoned or not — already holds
the email: a live user trips the service's own conflict check, while a
tombstoned one slips past the check (which excludes soft-deleted rows)
but still violates the UNIQUE email column, and the store's P2002 error
is mapped by the global error handler to a 409 CONFLICT response.  When
no user holds the email, registration succeeds, storing the user with
the hashed secret and returning the redacted user with tokens. -/
theorem register_conflict_on_existing_email (cfg : AuthConfig)
    (hash : String → String) (db : DB) (now : Nat) (email password name : String) :
    ((∃ u ∈ db.users, u.email = email) →
      ∃ f : RegisterFailure,
        (register cfg hash db now email password name).2 = .error f ∧
        (errorHandler f).statusCode = 409 ∧ (errorHandler f).code = "CONFLICT") ∧
    ((∀ u ∈ db.users, u.email ≠ email) →
      ∃ (resp : UserResponse) (tokens : AuthTokens),
        (register cfg hash db now email password name).2 = .ok (resp, tokens) ∧
        resp.email = email ∧
        ∃ nu ∈ ((register cfg hash db now email password name).1).users,
          nu.email = email ∧ nu.password = hash password) := by
  constructor
  · rintro ⟨u, hu, he⟩
    cases hfe : findUserByEmail db email with
    | some u0 =>
      exact ⟨.appError (AppError.conflict "Email already registered"),
        by simp [register, hfe], rfl, rfl⟩
    | none =>
      have hany : db.users.any (fun v => v.email == email) = true := by
        rw [List.any_eq_true]
        exact ⟨u, hu, by simp [he]⟩
      refine ⟨.prismaError (.P2002 "email"), ?_, rfl, rfl⟩
      simp [register, hfe, createUser, hany]
  · intro hall
    have hfe : findUserByEmail db email = none := by
      rw [findUserByEmail, List.find?_eq_none]
      intro v hv
      simp [hall v hv]
    have hany : db.users.any (fun v => v.email == email) = false := by
      rw [List.any_eq_false]
      intro v hv
      simp [hall v hv]
    have hreg : (register cfg hash db now email password name).2 =
        .ok (mapUserResponse ⟨db.nextId, email, hash password, name, true, none⟩,
          (generateTokens cfg
            { db with
              users := db.users ++ [⟨db.nextId, email, hash password, name, true, none⟩],
              nextId := db.nextId + 1 } now
            ⟨db.nextId, email, hash password, name, true, none⟩).2) := by
      simp [register, hfe, createUser, hany]
    refine ⟨_, _, hreg, rfl, ⟨db.nextId, email, hash password, name, true, none⟩, ?_, rfl, rfl⟩
    have husers : ((register cfg hash db now email password name).1).users =
        db.users ++ [⟨db.nextId, email, hash password, name, true, none⟩] := by
      simp [register, hfe, createUser, hany, users_generateTokens]
    rw [husers]
    exact List.mem_append_right _ (List.mem_singleton_self _)

/-- C7 witness: conflict for the tombstoned user's email (via the UNIQUE
column and the error handler) and success for a fresh email, on the
concrete store `dbRegister`. -/
theorem register_conflict_on_existing_email_witness :
    (∃ f : RegisterFailure,
      (register cfgEx (fun p => String.append "H" p) dbRegister 0 "t@x.com" "pw" "T2").2 =
        .error f ∧
      (errorHandler f).statusCode = 409 ∧ (errorHandler f).code = "CONFLICT") ∧
    (∃ (resp : UserResponse) (tokens : AuthTokens),
      (register cfgEx (fun p => String.append "H" p) dbRegister 0 "new@x.com" "pw" "N").2 =
        .ok (resp, tokens) ∧
      resp.email = "new@x.com" ∧
      ∃ nu ∈ ((register cfgEx (fun p => String.append "H" p) dbRegister 0
          "new@x.com" "pw" "N").1).users,
        nu.email = "new@x.com" ∧ nu.password = String.append "H" "pw") :=
  ⟨(register_conflict_on_existing_email cfgEx (fun p => String.append "H" p)
      dbRegister 0 "t@x.com" "pw" "T2").1 ⟨userTombstoned, by decide, by decide⟩,
   (register_conflict_on_existing_email cfgEx (fun p => String.append "H" p)
      dbRegister 0 "new@x.com" "pw" "N").2 (by decide)⟩

/-- Evicting old sessions never changes the freshness counter. -/
theorem nextId_deleteOldest (db : DB) (uid k : Nat) :
    (deleteOldestRefreshTokens db uid k).nextId = db.nextId := by
  unfold deleteOldestRefreshTokens
  by_cases h : (perUser db uid).length - k = 0 <;> simp [h]

/-- Every session surviving an eviction was already stored. -/
theorem mem_sessions_deleteOldest (db : DB) (uid k : Nat) (x : RefreshToken)
    (hx : x ∈ (deleteOldestRefreshTokens db uid k).sessions) : x ∈ db.sessions := by
  unfold deleteOldestRefreshTokens at hx
  by_cases h : (perUser db uid).length - k = 0
  · simpa [h] using hx
  · simp [h, List.mem_filter] at hx
    exact hx.1

/-- Every session stored after an issuance either was already stored or
is the newly inserted row (fresh id and token drawn from the counter,
expiry now plus seven days, created now). -/
theorem mem_sessions_generateTokens (cfg : AuthConfig) (db : DB) (now : Nat) (u : User)
    (x : RefreshToken) (hx : x ∈ ((generateTokens cfg db now u).1).sessions) :
    x ∈ db.sessions ∨ x = ⟨db.nextId, db.nextId, u.uid, now + sevenDaysMs, now⟩ := by
  have hnext : (if MAX_DEVICES ≤ countUserRefreshTokens db u.uid
      then deleteOldestRefreshTokens db u.uid (MAX_DEVICES - 1) else db).nextId =
      db.nextId := by
    split
    · exact nextId_deleteOldest db u.uid (MAX_DEVICES - 1)
    · rfl
  simp only [generateTokens, createRefreshToken, List.mem_append] at hx
  rcases hx with h1 | h1
  · split at h1
    · exact Or.inl (mem_sessions_deleteOldest db u.uid (MAX_DEVICES - 1) x h1)
    · exact Or.inl h1
  · right
    rw [List.mem_singleton] at h1
    rw [h1, hnext]

/-- Once the token misses the lookup, any run of further refresh calls
presenting it leaves the store untouched. -/
theorem refreshMany_of_not_found (cfg : AuthConfig) (db2 : DB) (t : Nat)
    (h : findRefreshToken db2 t = none) :
    ∀ nows : List Nat, refreshMany cfg db2 t nows = db2
  | [] => rfl
  | n :: rest => by
    have h1 : (refreshToken cfg db2 n t).1 = db2 := by
      rw [refreshToken_of_not_found cfg db2 n t h]
    show refreshMany cfg ((refreshToken cfg db2 n t).1) t rest = db2
    rw [h1]
    exact refreshMany_of_not_found cfg db2 t h rest

/-- C2 (amended): refresh is single-use — for a stored, unexpired token
whose owner exists (non-tombstoned) and is active, the first call
succeeds with a new token pair, the old token no longer satisfies a
lookup, and every subsequent sequential call presenting the same token
fails 401 UNAUTHORIZED with the invalid-token message, leaving the store
unchanged.  Well-formedness (`DB.Wf`) supplies the uniqueness discipline
of the token column and the freshness counter. -/
theorem refresh_single_use (cfg : AuthConfig) (db : DB) (now t : Nat)
    (s : RefreshToken) (u : User)
    (hwf : db.Wf)
    (hfind : findRefreshToken db t = some s)
    (hexp : ¬ s.expiresAt < now)
    (huser : findUserById db s.userId = some u)
    (hact : u.isActive = true) :
    (∃ tokens, (refreshToken cfg db now t).2 = .ok tokens) ∧
    findRefreshToken ((refreshToken cfg db now t).1) t = none ∧
    (∀ nows : List Nat,
      refreshMany cfg ((refreshToken cfg db now t).1) t nows =
        (refreshToken cfg db now t).1) ∧
    (∀ now2 : Nat,
      refreshToken cfg ((refreshToken cfg db now t).1) now2 t =
        ((refreshToken cfg db now t).1,
         .error (AppError.unauthorized "Invalid refresh token"))) := by
  have hs_mem : s ∈ db.sessions := List.mem_of_find?_eq_some hfind
  have hs_tok : s.token = t := by
    have := List.find?_some hfind
    simpa using this
  have ht_lt : t < db.nextId := hs_tok ▸ (hwf.1 s hs_mem).2
  cases hG : generateTokens cfg (deleteRefreshToken db t) now u with
  | mk db2 tk =>
    have h1 : refreshToken cfg db now t = (db2, .ok tk) := by
      simp [refreshToken, hfind, hexp, huser, hact, hG]
    have hnone : findRefreshToken db2 t = none := by
      rw [findRefreshToken, List.find?_eq_none]
      intro x hx
      have hx2 : x ∈ ((generateTokens cfg (deleteRefreshToken db t) now u).1).sessions := by
        rw [hG]
        exact hx
      rcases mem_sessions_generateTokens cfg (deleteRefreshToken db t) now u x hx2 with
        h2 | h2
      · simp only [deleteRefreshToken, List.mem_filter] at h2
        simpa using h2.2
      · rw [h2]
        simp only [deleteRefreshToken]
        simp
        omega
    refine ⟨⟨tk, by rw [h1]⟩, ?_, ?_, ?_⟩
    · rw [h1]
      exact hnone
    · intro nows
      rw [h1]
      exact refreshMany_of_not_found cfg db2 t hnone nows
    · intro now2
      rw [h1]
      exact refreshToken_of_not_found cfg db2 now2 t hnone

/-- C2 witness: the amended theorem applied to the concrete store
`dbRefreshValid` and its active owner. -/
theorem refresh_single_use_witness :
    (∃ tokens, (refreshToken cfgEx dbRefreshValid 5 7).2 = .ok tokens) ∧
    findRefreshToken ((refreshToken cfgEx dbRefreshValid 5 7).1) 7 = none :=
  ⟨(refresh_single_use cfgEx dbRefreshValid 5 7 ⟨0, 7, 1, 1000, 0⟩ userActive
      (by decide) (by decide) (by decide) (by decide) (by decide)).1,
   (refresh_single_use cfgEx dbRefreshValid 5 7 ⟨0, 7, 1, 1000, 0⟩ userActive
      (by decide) (by decide) (by decide) (by decide) (by decide)).2.1⟩

/-- C2 counterexample: the claim as stated is false — at a concrete
store holding token 7, stored and unexpired, the first refresh call
fails (the owner is deactivated), so being stored and unexpired does not
suffice for the first call to succeed. -/
theorem refresh_first_call_fails_for_inactive_owner :
    findRefreshToken dbRefreshInactive 7 = some ⟨0, 7, 2, 1000, 0⟩ ∧
    ¬ (⟨0, 7, 2, 1000, 0⟩ : RefreshToken).expiresAt < 5 ∧
    errOf (refreshToken cfgEx dbRefreshInactive 5 7).2 =
      some (AppError.unauthorized "User not found or inactive") := by
  decide

/-- Filtering the session table commutes with the per-user projection. -/
theorem perUser_sessions_filter (db : DB) (p : RefreshToken → Bool) (uid : Nat) :
    perUser ({ db with sessions := db.sessions.filter p }) uid =
      (perUser db uid).filter p := by
  simp only [perUser, List.filter_filter]
  congr 1
  funext s
  exact Bool.and_comm _ _

/-- Eviction either does nothing or filters the session table. -/
theorem deleteOldest_eq_filter_or_self (db : DB) (uid k : Nat) :
    deleteOldestRefreshTokens db uid k = db ∨
    ∃ p : RefreshToken → Bool,
      deleteOldestRefreshTokens db uid k = { db with sessions := db.sessions.filter p } := by
  simp only [deleteOldestRefreshTokens]
  split
  · exact Or.inl rfl
  · exact Or.inr ⟨_, rfl⟩

/-- Well-formedness survives filtering the session table. -/
theorem wf_sessions_filter (db : DB) (p : RefreshToken → Bool) (hwf : db.Wf) :
    ({ db with sessions := db.sessions.filter p } : DB).Wf := by
  obtain ⟨hbound, hs, ht, hp⟩ := hwf
  refine ⟨?_, ?_, ?_, ?_⟩
  · intro s hsmem
    exact hbound s (List.mem_filter.mp hsmem).1
  · exact List.Nodup.sublist ((List.filter_sublist _).map _) hs
  · exact List.Nodup.sublist ((List.filter_sublist _).map _) ht
  · exact hp.filter p

/-- Well-formedness survives eviction. -/
theorem wf_deleteOldest (db : DB) (uid k : Nat) (hwf : db.Wf) :
    (deleteOldestRefreshTokens db uid k).Wf := by
  rcases deleteOldest_eq_filter_or_self db uid k with h | ⟨p, h⟩ <;> rw [h]
  · exact hwf
  · exact wf_sessions_filter db p hwf

/-- Well-formedness survives inserting a session whose token value is
the current freshness counter, created at a time no earlier than every
stored row. -/
theorem wf_createRefreshToken (db : DB) (uid e now2 : Nat) (hwf : db.Wf)
    (hb : ∀ s ∈ db.sessions, s.createdAt ≤ now2) :
    (createRefreshToken db uid db.nextId e now2).Wf := by
  obtain ⟨hbound, hs, ht, hp⟩ := hwf
  refine ⟨?_, ?_, ?_, ?_⟩
  · intro s hsmem
    have hsess : (createRefreshToken db uid db.nextId e now2).sessions =
        db.sessions ++ [⟨db.nextId, db.nextId, uid, e, now2⟩] := rfl
    rw [hsess] at hsmem
    show s.sid < db.nextId + 1 ∧ s.token < db.nextId + 1
    rcases List.mem_append.mp hsmem with h | h
    · have := hbound s h
      omega
    · rw [List.mem_singleton] at h
      rw [h]
      exact ⟨Nat.lt_succ_self _, Nat.lt_succ_self _⟩
  · have hmap : (createRefreshToken db uid db.nextId e now2).sessions.map (fun s => s.sid) =
        db.sessions.map (fun s => s.sid) ++ [db.nextId] := by
      simp [createRefreshToken]
    rw [hmap, List.nodup_append]
    refine ⟨hs, List.nodup_singleton _, ?_⟩
    intro a ha hb2
    rw [List.mem_singleton] at hb2
    obtain ⟨s0, hs0, hsid⟩ := List.mem_map.mp ha
    have := (hbound s0 hs0).1
    omega
  · have hmap : (createRefreshToken db uid db.nextId e now2).sessions.map (fun s => s.token) =
        db.sessions.map (fun s => s.token) ++ [db.nextId] := by
      simp [createRefreshToken]
    rw [hmap, List.nodup_append]
    refine ⟨ht, List.nodup_singleton _, ?_⟩
    intro a ha hb2
    rw [List.mem_singleton] at hb2
    obtain ⟨s0, hs0, htok⟩ := List.mem_map.mp ha
    have := (hbound s0 hs0).2
    omega
  · have hsess : (createRefreshToken db uid db.nextId e now2).sessions =
        db.sessions ++ [⟨db.nextId, db.nextId, uid, e, now2⟩] := rfl
    rw [hsess, List.pairwise_append]
    refine ⟨hp, List.pairwise_singleton _ _, ?_⟩
    intro a ha b hb2
    rw [List.mem_singleton] at hb2
    rw [hb2]
    exact hb a ha

/-- The store produced by an issuance, written as an insertion into the
(possibly evicted) store. -/
theorem generateTokens_fst_eq (cfg : AuthConfig) (db : DB) (now : Nat) (u : User) :
    (generateTokens cfg db now u).1 =
      createRefreshToken
        (if MAX_DEVICES ≤ countUserRefreshTokens db u.uid
          then deleteOldestRefreshTokens db u.uid (MAX_DEVICES - 1) else db)
        u.uid db.nextId (now + sevenDaysMs) now := rfl

/-- Well-formedness survives a whole issuance. -/
theorem wf_generateTokens (cfg : AuthConfig) (db : DB) (now : Nat) (u : User)
    (hwf : db.Wf) (hb : ∀ s ∈ db.sessions, s.createdAt ≤ now) :
    ((generateTokens cfg db now u).1).Wf := by
  rw [generateTokens_fst_eq]
  split
  · have h1 := wf_deleteOldest db u.uid (MAX_DEVICES - 1) hwf
    have h2 : ∀ s ∈ (deleteOldestRefreshTokens db u.uid (MAX_DEVICES - 1)).sessions,
        s.createdAt ≤ now :=
      fun s hs => hb s (mem_sessions_deleteOldest db u.uid (MAX_DEVICES - 1) s hs)
    have h3 : db.nextId = (deleteOldestRefreshTokens db u.uid (MAX_DEVICES - 1)).nextId :=
      (nextId_deleteOldest db u.uid (MAX_DEVICES - 1)).symm
    rw [h3]
    exact wf_createRefreshToken _ u.uid _ now h1 h2
  · exact wf_createRefreshToken db u.uid _ now hwf hb

/-- The per-user projection of an eviction drops the oldest rows: under
well-formedness the rows are already in creation order, so the store's
sort is the identity and what remains is the suffix of length at most
`keep`. -/
theorem perUser_deleteOldest (db : DB) (uid keep : Nat) (hwf : db.Wf) :
    perUser (deleteOldestRefreshTokens db uid keep) uid =
      (perUser db uid).drop ((perUser db uid).length - keep) := by
  have hsorted : (perUser db uid).Pairwise createdLe := hwf.2.2.2.filter _
  have hsort_eq : (perUser db uid).insertionSort createdLe = perUser db uid :=
    List.Sorted.insertionSort_eq hsorted
  have hnodup : ((perUser db uid).map (fun s => s.sid)).Nodup :=
    List.Nodup.sublist ((List.filter_sublist _).map _) hwf.2.1
  by_cases h : (perUser db uid).length - keep = 0
  · have hres : deleteOldestRefreshTokens db uid keep = db := by
      unfold deleteOldestRefreshTokens
      simp [h]
    rw [hres, h, List.drop_zero]
  · have hres : deleteOldestRefreshTokens db uid keep =
        { db with sessions := db.sessions.filter (fun s =>
            !((((perUser db uid).take ((perUser db uid).length - keep)).map
                (fun s => s.sid)).contains s.sid)) } := by
      unfold deleteOldestRefreshTokens
      simp [h, hsort_eq]
    rw [hres, perUser_sessions_filter]
    set dc := (perUser db uid).length - keep with hdc
    set ids := ((perUser db uid).take dc).map (fun s => s.sid) with hids
    have hsplit : perUser db uid = (perUser db uid).take dc ++ (perUser db uid).drop dc :=
      (List.take_append_drop dc (perUser db uid)).symm
    have hdisj : List.Disjoint (((perUser db uid).take dc).map (fun s => s.sid))
        (((perUser db uid).drop dc).map (fun s => s.sid)) := by
      have := hnodup
      rw [hsplit, List.map_append, List.nodup_append] at this
      exact this.2.2
    conv_lhs => rw [hsplit]
    rw [List.filter_append]
    have htake : ((perUser db uid).take dc).filter
        (fun s => !(ids.contains s.sid)) = [] := by
      rw [List.filter_eq_nil_iff]
      intro s hsmem
      have : s.sid ∈ ids := by
        rw [hids]
        exact List.mem_map.mpr ⟨s, hsmem, rfl⟩
      simp [this]
    have hdrop : ((perUser db uid).drop dc).filter
        (fun s => !(ids.contains s.sid)) = (perUser db uid).drop dc := by
      rw [List.filter_eq_self]
      intro s hsmem
      have hnotin : s.sid ∉ ids := by
        rw [hids]
        intro hin
        exact hdisj hin (List.mem_map.mpr ⟨s, hsmem, rfl⟩)
      simp [hnotin]
    rw [htake, hdrop, List.nil_append]

/-- The per-user projection of an insertion appends the new row. -/
theorem perUser_createRefreshToken (db : DB) (uid tok e now2 : Nat) :
    perUser (createRefreshToken db uid tok e now2) uid =
      perUser db uid ++ [⟨db.nextId, tok, uid, e, now2⟩] := by
  simp [perUser, createRefreshToken, List.filter_append]

/-- Taking `n` from an appended list only ever reads the first `n` of
the right part. -/
theorem take_append_take_self {α : Type} (a b : List α) (n : Nat) :
    (a ++ b.take n).take n = (a ++ b).take n := by
  rw [List.take_append_eq_append_take, List.take_append_eq_append_take, List.take_take,
    Nat.min_eq_left (Nat.sub_le n a.length)]

/-- The last `n` of a list with something appended only depend on the
last `n` of the original list. -/
theorem rtake_append_rtake {α : Type} (l1 l2 : List α) (n : Nat) :
    ((l1.rtake n) ++ l2).rtake n = (l1 ++ l2).rtake n := by
  rw [List.rtake_eq_reverse_take_reverse, List.reverse_append,
    List.rtake_eq_reverse_take_reverse, List.reverse_reverse,
    take_append_take_self]
  rw [List.rtake_eq_reverse_take_reverse, List.reverse_append]

/-- The last `n` of an appended list are the last `n` of the right part
when that part is long enough. -/
theorem rtake_append_of_le_length {α : Type} (l1 l2 : List α) (n : Nat)
    (h : n ≤ l2.length) :
    (l1 ++ l2).rtake n = l2.rtake n := by
  simp only [List.rtake, List.length_append]
  have h1 : l1.length + l2.length - n = l1.length + (l2.length - n) := by omega
  rw [h1, List.drop_append]

/-- The length of the last-`n` suffix. -/
theorem length_rtake {α : Type} (l : List α) (n : Nat) :
    (l.rtake n).length = min n l.length := by
  simp only [List.rtake, List.length_drop]
  omega

/-- One issuance acts on the principal's rows as a queue bounded at
`MAX_DEVICES`: the result is the last `MAX_DEVICES` of the old rows with
the new row appended. -/
theorem perUser_generateTokens (cfg : AuthConfig) (db : DB) (now : Nat) (u : User)
    (hwf : db.Wf) :
    perUser ((generateTokens cfg db now u).1) u.uid =
      (perUser db u.uid ++
        [(⟨db.nextId, db.nextId, u.uid, now + sevenDaysMs, now⟩ : RefreshToken)]).rtake
        MAX_DEVICES := by
  rw [generateTokens_fst_eq]
  split
  next h =>
    rw [perUser_createRefreshToken, perUser_deleteOldest db u.uid (MAX_DEVICES - 1) hwf,
      nextId_deleteOldest]
    have hL : MAX_DEVICES ≤ (perUser db u.uid).length := h
    have hMD : MAX_DEVICES = 4 := rfl
    simp only [List.rtake, List.length_append, List.length_cons, List.length_nil]
    have h1 : (perUser db u.uid).length + 1 - MAX_DEVICES =
        (perUser db u.uid).length - (MAX_DEVICES - 1) := by omega
    have h2 : (perUser db u.uid).length - (MAX_DEVICES - 1) ≤ (perUser db u.uid).length := by
      omega
    rw [h1, List.drop_append_of_le_length h2]
  next h =>
    rw [perUser_createRefreshToken]
    have hL : (perUser db u.uid).length < MAX_DEVICES := Nat.lt_of_not_le h
    have hMD : MAX_DEVICES = 4 := rfl
    simp only [List.rtake, List.length_append, List.length_cons, List.length_nil]
    have h1 : (perUser db u.uid).length + 1 - MAX_DEVICES = 0 := by omega
    rw [h1, List.drop_zero]

/-- Each issuance in a run mints exactly one session. -/
theorem length_mintedSessions (cfg : AuthConfig) (u : User) :
    ∀ (nows : List Nat) (db : DB),
      (mintedSessions cfg u db nows).length = nows.length
  | [], _ => rfl
  | n :: rest, db => by
    simp [mintedSessions, length_mintedSessions cfg u rest]

/-- The principal's rows after a nonempty run of issuances are the last
`MAX_DEVICES` of the previously stored rows followed by the freshly
minted ones, in creation order. -/
theorem perUser_issueMany (cfg : AuthConfig) (u : User) :
    ∀ (nows : List Nat) (db : DB) (n0 : Nat), db.Wf →
      (n0 :: nows).Pairwise (· ≤ ·) →
      (∀ s ∈ db.sessions, ∀ n ∈ n0 :: nows, s.createdAt ≤ n) →
      perUser (issueMany cfg u db (n0 :: nows)) u.uid =
        (perUser db u.uid ++ mintedSessions cfg u db (n0 :: nows)).rtake MAX_DEVICES
  | [], db, n0, hwf, _, _ => by
    show perUser ((generateTokens cfg db n0 u).1) u.uid = _
    rw [perUser_generateTokens cfg db n0 u hwf]
    rfl
  | n1 :: rest, db, n0, hwf, hpair, hb => by
    have hwf1 : ((generateTokens cfg db n0 u).1).Wf :=
      wf_generateTokens cfg db n0 u hwf
        (fun s hs => hb s hs n0 (List.mem_cons_self _ _))
    have hpair1 : (n1 :: rest).Pairwise (· ≤ ·) := hpair.of_cons
    have hb1 : ∀ s ∈ ((generateTokens cfg db n0 u).1).sessions,
        ∀ n ∈ n1 :: rest, s.createdAt ≤ n := by
      intro s hs n hn
      rcases mem_sessions_generateTokens cfg db n0 u s hs with h | h
      · exact hb s h n (List.mem_cons_of_mem _ hn)
      · rw [h]
        exact (List.pairwise_cons.mp hpair).1 n hn
    have ih := perUser_issueMany cfg u rest ((generateTokens cfg db n0 u).1) n1
      hwf1 hpair1 hb1
    show perUser (issueMany cfg u ((generateTokens cfg db n0 u).1) (n1 :: rest)) u.uid = _
    rw [ih, perUser_generateTokens cfg db n0 u hwf, rtake_append_rtake,
      List.append_assoc, List.singleton_append]
    rfl

/-- C1: after any run of more than `MAX_DEVICES` successive successful
sequential issuances (the common tail of login, register and refresh
success) for one principal, the principal's stored session count is
exactly `MAX_DEVICES` and the retained rows are exactly the
`MAX_DEVICES` most recently created ones (the suffix of the creation
sequence); moreover, whenever the pre-insert count has reached
`MAX_DEVICES`, the eviction deletes the oldest rows in creation order so
that exactly `MAX_DEVICES - 1` remain before the insert. -/
theorem device_cap_retains_most_recent (cfg : AuthConfig) (u : User) (db : DB)
    (nows : List Nat)
    (hwf : db.Wf)
    (hpair : nows.Pairwise (· ≤ ·))
    (hb : ∀ s ∈ db.sessions, ∀ n ∈ nows, s.createdAt ≤ n)
    (hlen : MAX_DEVICES < nows.length) :
    countUserRefreshTokens (issueMany cfg u db nows) u.uid = MAX_DEVICES ∧
    perUser (issueMany cfg u db nows) u.uid =
      (mintedSessions cfg u db nows).rtake MAX_DEVICES ∧
    (∀ db2 : DB, db2.Wf → MAX_DEVICES ≤ countUserRefreshTokens db2 u.uid →
      countUserRefreshTokens
          (deleteOldestRefreshTokens db2 u.uid (MAX_DEVICES - 1)) u.uid =
        MAX_DEVICES - 1 ∧
      perUser (deleteOldestRefreshTokens db2 u.uid (MAX_DEVICES - 1)) u.uid =
        (perUser db2 u.uid).rtake (MAX_DEVICES - 1)) := by
  cases nows with
  | nil => simp [MAX_DEVICES] at hlen
  | cons n0 rest =>
    have hmlen : (mintedSessions cfg u db (n0 :: rest)).length = (n0 :: rest).length :=
      length_mintedSessions cfg u (n0 :: rest) db
    have h2 : perUser (issueMany cfg u db (n0 :: rest)) u.uid =
        (mintedSessions cfg u db (n0 :: rest)).rtake MAX_DEVICES := by
      rw [perUser_issueMany cfg u rest db n0 hwf hpair hb,
        rtake_append_of_le_length]
      omega
    refine ⟨?_, h2, ?_⟩
    · show (perUser (issueMany cfg u db (n0 :: rest)) u.uid).length = MAX_DEVICES
      rw [h2, length_rtake, hmlen]
      simp only [MAX_DEVICES] at *
      omega
    · intro db2 hwf2 hcount
      have hq := perUser_deleteOldest db2 u.uid (MAX_DEVICES - 1) hwf2
      have hcount2 : MAX_DEVICES ≤ (perUser db2 u.uid).length := hcount
      constructor
      · show (perUser (deleteOldestRefreshTokens db2 u.uid (MAX_DEVICES - 1)) u.uid).length =
          MAX_DEVICES - 1
        rw [hq, List.length_drop]
        simp only [MAX_DEVICES] at *
        omega
      · rw [hq]
        rfl

/-- C1 witness: five successive issuances against a store with no
sessions leave exactly `MAX_DEVICES` sessions for the principal. -/
theorem device_cap_retains_most_recent_witness :
    countUserRefreshTokens (issueMany cfgEx userActive dbIssue [1, 2, 3, 4, 5]) 1 =
      MAX_DEVICES :=
  (device_cap_retains_most_recent cfgEx userActive dbIssue [1, 2, 3, 4, 5]
    (by decide) (by decide) (by decide) (by decide)).1

end BackendAuth
